import Mathlib

/-!
Verification of the operation-state core of the cpp-futures library.

The definitions below are a shallow embedding of the C++ sources:

- `src/include/futures/detail/operation_state.hpp`
  (`operation_state_base`, `operation_state`, `deferred_operation_state`)
- `src/include/futures/detail/continuations_source.hpp`
  (`continuations_state`, `continuations_source`)
- `src/include/futures/impl/wait_for_all.hpp`
  (the readiness scan loop of `wait_for_all_for` and `wait_for_all_until`)

Modelling conventions:

- The embedding is sequential.  Each member function becomes a pure Lean
  function from the state to the new state, together with a trace of the
  observable events the function performs (lock operations, outcome
  writes, status writes, condition-variable notifications).  Where the
  real code can only make progress through another thread (a condition
  variable wait, or a task submitted to an executor), the interleaved
  effect of that other thread is an explicit parameter of the function.
- The waiter mutex is rendered as `lockAcquire` and `lockRelease` events.
  The mutex is `std::mutex`, which is not recursive: a code path that
  re-locks the mutex while the same thread already holds it never makes
  progress.  Functions that can reach such a path return a Boolean flag
  that is `false` when the call never returns; the accompanying state and
  trace describe everything the call did before blocking.
- Values of the stored type `R` are abstracted as an arbitrary type `V`;
  exceptions are abstracted by `Exn`; callables, condition variables and
  executors are abstracted by identifiers of type `Nat`.
- C++ exceptions thrown by the library itself (`promise_already_satisfied`,
  `promise_uninitialized`) are rendered with `Except`.
-/

namespace Futures

/-- Status enumeration of `operation_state_base` (operation_state.hpp,
the private `enum status`): deferred, launched, waiting, ready. -/
inductive Status where
  | deferred
  | launched
  | waiting
  | ready
deriving DecidableEq, Repr

/-- Numeric index of a status in the order in which the spec lists the
transitions (Deferred, Launched, Waiting, Ready). -/
def Status.toNat : Status → Nat
  | Status.deferred => 0
  | Status.launched => 1
  | Status.waiting => 2
  | Status.ready => 3

/-- Result type of the wait functions (`future_status`): ready, timeout,
or deferred. -/
inductive FutureStatus where
  | ready
  | timeout
  | deferred
deriving DecidableEq, Repr

/-- Library errors thrown by the operation state (error.hpp):
`promise_already_satisfied` and `promise_uninitialized`. -/
inductive StateError where
  | promiseAlreadySatisfied
  | promiseUninitialized
deriving DecidableEq, Repr

/-- Exceptions that can be stored in the `except_` member: the
`broken_promise` error installed when a producer dies, or an arbitrary
user exception (abstracted by an identifier). -/
inductive Exn where
  | brokenPromise
  | userError (n : Nat)
deriving DecidableEq, Repr

/-- Result of running a stored task: the task either returns a value
(the `set_value` path of `operation_state::apply`) or throws an
exception that `apply` catches and stores (the `set_exception` path). -/
inductive Completion (V : Type) where
  | value (v : V)
  | failure (e : Exn)
deriving DecidableEq, Repr

/-- Observable events performed by the member functions of the
operation state: waiter-mutex operations, outcome writes, writes to the
`status_` member, condition-variable notifications, thrown library
errors, and the launch actions of deferred states. -/
inductive Event where
  | lockAcquire
  | lockRelease
  | lockBlocked
  | writeValue
  | writeExcept
  | setStatus (st : Status)
  | notifyInternal
  | notifyExternal (cv : Nat)
  | throwError (e : StateError)
  | waitForParent
  | postToExecutor
  | runTaskInline
  | cvWait
  | appendWaiter (cv : Nat)
  | eraseWaiter (cv : Nat)
deriving DecidableEq, Repr

/-- Operation state of the library (operation_state.hpp).  The first
four fields are the members of `operation_state_base` (`status_`,
`except_`, the storage of `operation_state`, `external_waiters_`).  The
remaining fields embed the derived `deferred_operation_state`:
`alwaysDeferred` and `hasExecutor` are the `Options::is_always_deferred`
and `Options::has_executor` compile-time flags, `task` is the outcome of
the stored deferred function (`none` for eager states, which store no
task), `taskPosted` records that the task was handed to the stored
executor, and `taskStarted` records that the task began executing. -/
structure OpState (V : Type) where
  status : Status
  except : Option Exn
  storage : Option V
  externalWaiters : List Nat
  alwaysDeferred : Bool
  hasExecutor : Bool
  task : Option (Completion V)
  taskPosted : Bool
  taskStarted : Bool
deriving DecidableEq, Repr

/-- Notification part of `mark_ready_unsafe`: the internal condition
variable and every registered external condition variable are notified
exactly when the previous status was `waiting`
(operation_state.hpp, lines 522-532). -/
def notifyEvents (prev : Status) (ws : List Nat) : List Event :=
  if prev = Status.waiting then
    Event.notifyInternal :: ws.map Event.notifyExternal
  else []

/-- Embedding of `operation_state_base::mark_ready_unsafe`: read the
previous status, set `status_` to ready, and notify the internal and
external condition variables when the previous status was waiting. -/
def markReadyUnsafe {V : Type} (s : OpState V) : OpState V × List Event :=
  ({ s with status := Status.ready },
    Event.setStatus Status.ready :: notifyEvents s.status s.externalWaiters)

/-- Embedding of `operation_state_base::mark_exception_unsafe`: throw
`promise_already_satisfied` if the state is ready, otherwise store the
exception in `except_` and fall through to `mark_ready_unsafe`. -/
def markExceptionUnsafe {V : Type} (e : Exn) (s : OpState V) :
    Except StateError Unit × OpState V × List Event :=
  if s.status = Status.ready then
    (Except.error StateError.promiseAlreadySatisfied, s,
      [Event.throwError StateError.promiseAlreadySatisfied])
  else
    (Except.ok (),
      (markReadyUnsafe { s with except := some e }).1,
      Event.writeExcept :: (markReadyUnsafe { s with except := some e }).2)

/-- Embedding of `operation_state_base::mark_ready`: acquire the waiter
mutex through `make_wait_lock`, then `mark_ready_unsafe`. -/
def markReady {V : Type} (s : OpState V) : OpState V × List Event :=
  ((markReadyUnsafe s).1,
    Event.lockAcquire :: (markReadyUnsafe s).2 ++ [Event.lockRelease])

/-- Embedding of `operation_state_base::mark_exception`: acquire the
waiter mutex, then `mark_exception_unsafe`; a thrown
`promise_already_satisfied` releases the lock while unwinding. -/
def markException {V : Type} (e : Exn) (s : OpState V) :
    Except StateError Unit × OpState V × List Event :=
  ((markExceptionUnsafe e s).1,
    (markExceptionUnsafe e s).2.1,
    Event.lockAcquire :: (markExceptionUnsafe e s).2.2 ++ [Event.lockRelease])

/-- Embedding of `operation_state::set_value`: throw
`promise_already_satisfied` if the state is ready (checked without the
lock), otherwise write the value into the storage, then `mark_ready`.
The `request_run` call on the continuation source performed afterwards
by continuable states is modelled separately on `ContState`. -/
def setValue {V : Type} (v : V) (s : OpState V) :
    Except StateError Unit × OpState V × List Event :=
  if s.status = Status.ready then
    (Except.error StateError.promiseAlreadySatisfied, s,
      [Event.throwError StateError.promiseAlreadySatisfied])
  else
    (Except.ok (),
      (markReady { s with storage := some v }).1,
      Event.writeValue :: (markReady { s with storage := some v }).2)

/-- Embedding of `operation_state::set_exception`, which forwards to
`mark_exception` (the `request_run` on the continuation source performed
afterwards by continuable states is modelled separately). -/
def setException {V : Type} (e : Exn) (s : OpState V) :
    Except StateError Unit × OpState V × List Event :=
  markException e s

/-- Embedding of `operation_state_base::signal_promise_destroyed`: if
the state is not ready, store a `broken_promise` error through
`mark_exception`. -/
def signalPromiseDestroyed {V : Type} (s : OpState V) :
    OpState V × List Event :=
  if s.status = Status.ready then (s, [])
  else ((markException Exn.brokenPromise s).2.1,
    (markException Exn.brokenPromise s).2.2)

/-- Embedding of `operation_state::apply` running the stored task with
the waiter mutex not held: a returned value goes through `set_value`, a
thrown exception is caught and goes through `set_exception`. -/
def applyCompletion {V : Type} (c : Completion V) (s : OpState V) :
    OpState V × List Event :=
  match c with
  | Completion.value v => ((setValue v s).2.1, (setValue v s).2.2)
  | Completion.failure e => ((setException e s).2.1, (setException e s).2.2)

/-- Inline launch of the stored task (`post_deferred_to_executor_impl`,
no-executor overload) performed while the caller does not hold the
waiter mutex, as in `wait_impl` where a `relocker` has released the
lock: the task runs on the calling thread and completes the state. -/
def runInlineTask {V : Type} (s : OpState V) : Bool × OpState V × List Event :=
  match s.task with
  | none => (true, { s with taskStarted := true }, [Event.runTaskInline])
  | some c =>
    (true,
      (applyCompletion c { s with taskStarted := true }).1,
      Event.runTaskInline :: (applyCompletion c { s with taskStarted := true }).2)

/-- Inline launch of the stored task performed while the calling thread
still holds the waiter mutex, as in `notify_when_ready`, which calls
`post_deferred` under `make_wait_lock` with no `relocker`.  Completing
the task re-enters `mark_ready` (after `set_value` has written the
storage) or `mark_exception` (before anything is written), and both lock
the non-recursive waiter mutex again, so the call never returns; the
flag `false` records this. -/
def runInlineTaskLocked {V : Type} (s : OpState V) :
    Bool × OpState V × List Event :=
  match s.task with
  | none => (true, { s with taskStarted := true }, [Event.runTaskInline])
  | some (Completion.value v) =>
    (false, { s with taskStarted := true, storage := some v },
      [Event.runTaskInline, Event.writeValue, Event.lockBlocked])
  | some (Completion.failure _) =>
    (false, { s with taskStarted := true },
      [Event.runTaskInline, Event.lockBlocked])

/-- Embedding of `deferred_operation_state::post_deferred`
(operation_state.hpp, lines 1235-1261): when `Options::is_always_deferred`
holds, the task is submitted to the stored executor if
`Options::has_executor`, and run inline otherwise; when the state is not
always-deferred, `post_deferred_impl` does nothing.  `lockHeld` records
whether the caller still holds the waiter mutex, which decides the fate
of an inline run. -/
def postDeferred {V : Type} (lockHeld : Bool) (s : OpState V) :
    Bool × OpState V × List Event :=
  if s.alwaysDeferred then
    if s.hasExecutor then
      (true, { s with taskPosted := true }, [Event.postToExecutor])
    else if lockHeld then runInlineTaskLocked s
    else runInlineTask s
  else (true, s, [])

/-- Launch phase of `wait_impl` (the static `post_deferred_impl`): the
const overload does nothing; the mutable overload calls
`wait_for_parent` and, when the previous status was deferred, sets the
status to launched and calls `post_deferred` with the lock released
through a `relocker`. -/
def waitPostPhase {V : Type} (isConst : Bool) (s : OpState V) :
    OpState V × List Event :=
  if isConst then (s, [])
  else if s.status = Status.deferred then
    ((postDeferred false { s with status := Status.launched }).2.1,
      Event.waitForParent :: Event.setStatus Status.launched ::
        Event.lockRelease ::
          (postDeferred false { s with status := Status.launched }).2.2
            ++ [Event.lockAcquire])
  else (s, [Event.waitForParent])

/-- Embedding of `operation_state_base::wait_impl`
(operation_state.hpp, lines 570-613).  `isConst` selects the const
overload, `timed` tells whether a timeout time pointer was passed, and
`during` is the completion another thread performs while this thread
sleeps on the condition variable before the deadline (`none` when no
completion arrives in time).  The first component is the returned
`future_status`, with `none` when the call blocks forever (an untimed
wait on a state that is never completed). -/
def waitImpl {V : Type} (isConst timed : Bool) (during : Option (Completion V))
    (s : OpState V) : Option FutureStatus × OpState V × List Event :=
  if isConst = true ∧ s.status = Status.deferred then
    (some FutureStatus.deferred, s, [Event.lockAcquire, Event.lockRelease])
  else if s.status = Status.ready then
    (some FutureStatus.ready, s, [Event.lockAcquire, Event.lockRelease])
  else
    let s1 := (waitPostPhase isConst s).1
    let tr1 := (waitPostPhase isConst s).2
    if s1.status = Status.ready then
      (some FutureStatus.ready, s1,
        Event.lockAcquire :: tr1 ++ [Event.lockRelease])
    else
      match during with
      | some c =>
        (some FutureStatus.ready,
          (applyCompletion c { s1 with status := Status.waiting }).1,
          Event.lockAcquire :: tr1 ++
            [Event.setStatus Status.waiting, Event.cvWait, Event.lockRelease])
      | none =>
        if timed then
          (some FutureStatus.timeout, { s1 with status := Status.launched },
            Event.lockAcquire :: tr1 ++
              [Event.setStatus Status.waiting, Event.cvWait,
                Event.setStatus Status.launched, Event.lockRelease])
        else
          (none, { s1 with status := Status.waiting },
            Event.lockAcquire :: tr1 ++
              [Event.setStatus Status.waiting, Event.cvWait])

/-- Embedding of `operation_state_base::notify_when_ready`
(operation_state.hpp, lines 455-469): under the waiter mutex, read the
previous status, call `wait_for_parent`, launch the deferred task if the
previous status was deferred (with the lock still held), set the status
to waiting unless the previous status was ready, and append the
external condition variable to the waiter list.  The first component is
`false` when the call never returns because the inline launch blocked
on the waiter mutex. -/
def notifyWhenReady {V : Type} (cv : Nat) (s : OpState V) :
    Bool × OpState V × List Event :=
  if s.status = Status.deferred then
    let d := (postDeferred true { s with status := Status.launched }).1
    let s1 := (postDeferred true { s with status := Status.launched }).2.1
    let trP := (postDeferred true { s with status := Status.launched }).2.2
    if d then
      (true,
        { s1 with status := Status.waiting,
                  externalWaiters := s1.externalWaiters ++ [cv] },
        Event.lockAcquire :: Event.waitForParent ::
          Event.setStatus Status.launched :: trP ++
            [Event.setStatus Status.waiting, Event.appendWaiter cv,
              Event.lockRelease])
    else
      (false, s1,
        Event.lockAcquire :: Event.waitForParent ::
          Event.setStatus Status.launched :: trP)
  else if s.status = Status.ready then
    (true, { s with externalWaiters := s.externalWaiters ++ [cv] },
      [Event.lockAcquire, Event.waitForParent, Event.appendWaiter cv,
        Event.lockRelease])
  else
    (true,
      { s with status := Status.waiting,
               externalWaiters := s.externalWaiters ++ [cv] },
      [Event.lockAcquire, Event.waitForParent,
        Event.setStatus Status.waiting, Event.appendWaiter cv,
        Event.lockRelease])

/-- Embedding of `operation_state_base::unnotify_when_ready`: under the
waiter mutex, erase the registered condition variable from the external
waiter list (the iterator handle is modelled by the identifier of the
condition variable). -/
def unnotifyWhenReady {V : Type} (cv : Nat) (s : OpState V) :
    OpState V × List Event :=
  ({ s with externalWaiters := s.externalWaiters.erase cv },
    [Event.lockAcquire, Event.eraseWaiter cv, Event.lockRelease])

/-- Operations a thread can invoke on an operation state.  `waitOp`
covers `wait`, `wait_for` and `wait_until` (the last two share
`wait_impl` with a timeout pointer), and `getOnState` is
`operation_state::get`, which calls the mutable untimed `wait` and then
reads the storage without mutating the state. -/
inductive StateOp (V : Type) where
  | setValueOp (v : V)
  | setExceptionOp (e : Exn)
  | markReadyOp
  | signalPromiseDestroyedOp
  | waitOp (isConst timed : Bool) (during : Option (Completion V))
  | getOnState (during : Option (Completion V))
  | notifyWhenReadyOp (cv : Nat)
  | unnotifyWhenReadyOp (cv : Nat)
deriving DecidableEq, Repr

/-- Run one operation on the state, keeping the new state and the trace
of events the operation performed on the calling thread. -/
def runOp {V : Type} (op : StateOp V) (s : OpState V) : OpState V × List Event :=
  match op with
  | StateOp.setValueOp v => (setValue v s).2
  | StateOp.setExceptionOp e => (setException e s).2
  | StateOp.markReadyOp => markReady s
  | StateOp.signalPromiseDestroyedOp => signalPromiseDestroyed s
  | StateOp.waitOp c t d => (waitImpl c t d s).2
  | StateOp.getOnState d => (waitImpl false false d s).2
  | StateOp.notifyWhenReadyOp cv => (notifyWhenReady cv s).2
  | StateOp.unnotifyWhenReadyOp cv => unnotifyWhenReady cv s

/-- Run a sequence of operations on the state. -/
def runOps {V : Type} (ops : List (StateOp V)) (s : OpState V) : OpState V :=
  ops.foldl (fun st op => (runOp op st).1) s

/-- Status values written by a trace of events. -/
def statusWrites : List Event → List Status
  | [] => []
  | Event.setStatus st :: tr => st :: statusWrites tr
  | _ :: tr => statusWrites tr

/-- Sequence of statuses seen by an operation: the status on entry
followed by every status value the operation itself writes. -/
def statusSeq {V : Type} (op : StateOp V) (s : OpState V) : List Status :=
  s.status :: statusWrites (runOp op s).2

/-- Operation state freshly allocated by `schedule`: a
`deferred_operation_state` whose options carry `always_deferred_opt`
(test/unit/launch.cpp names `future_options<continuable_opt,
always_deferred_opt>` for deferred futures), with the stored task
abstracted by its completion. -/
def mkDeferredState {V : Type} (hasEx : Bool) (c : Completion V) : OpState V :=
  { status := Status.deferred
  , except := none
  , storage := none
  , externalWaiters := []
  , alwaysDeferred := true
  , hasExecutor := hasEx
  , task := some c
  , taskPosted := false
  , taskStarted := false }

/-- Boolean subsequence test on event lists, used to express that a
trace performs a given list of steps in a given order. -/
def isSubseq : List Event → List Event → Bool
  | [], _ => true
  | _ :: _, [] => false
  | a :: as, b :: bs =>
    if a = b then isSubseq as bs else isSubseq (a :: as) bs

/-- Side effects accumulated by the continuation machinery
(continuations_source.hpp): `ran` lists the callbacks invoked by the
drains of `request_run`, in order; `submitted` lists the
(executor, callback) pairs handed to `execute` by `push` after the run
request.  Callbacks and executors are abstracted by identifiers. -/
structure ContEffects where
  ran : List Nat
  submitted : List (Nat × Nat)
deriving DecidableEq, Repr

/-- Members of `continuations_state`: the `run_requested_` latch and the
continuation container (`atomic_queue` for eager states, `small_vector`
for always-deferred states; both are modelled as a list holding the
callbacks in insertion order). -/
structure ContState where
  runRequested : Bool
  continuations : List Nat
deriving DecidableEq, Repr

/-- Embedding of `continuations_state::push`
(continuations_source.hpp, lines 119-137): under the continuations
mutex, if no run was requested, record the callback in the container
and return true; otherwise unlock and submit the callback to the given
executor through `execute`, returning false. -/
def ContState.push (ex fn : Nat) (s : ContState) (eff : ContEffects) :
    Bool × ContState × ContEffects :=
  if s.runRequested then
    (false, s, { eff with submitted := eff.submitted ++ [(ex, fn)] })
  else
    (true, { s with continuations := s.continuations ++ [fn] }, eff)

/-- Embedding of `continuations_state::request_run`
(continuations_source.hpp, lines 165-197).  The eager overload performs
a compare-exchange on `run_requested_`; on success it pops and runs the
recorded callbacks, then takes the continuations mutex and drains the
callbacks other threads pushed between the compare-exchange and the
lock, which are passed here as `racing`.  The always-deferred overload
is the `racing = []` instance: it tests and sets the plain flag and runs
the recorded callbacks in order. -/
def ContState.requestRun (racing : List Nat) (s : ContState)
    (eff : ContEffects) : Bool × ContState × ContEffects :=
  if s.runRequested then (false, s, eff)
  else
    (true, { runRequested := true, continuations := [] },
      { eff with ran := eff.ran ++ s.continuations ++ racing })

/-- Operations on a continuation state: attach a callback, or request
the run (with the callbacks racing into the second drain). -/
inductive ContOp where
  | pushOp (ex fn : Nat)
  | requestRunOp (racing : List Nat)
deriving DecidableEq, Repr

/-- Run one continuation operation, keeping the Boolean result. -/
def runContOp (op : ContOp) (s : ContState) (eff : ContEffects) :
    Bool × ContState × ContEffects :=
  match op with
  | ContOp.pushOp ex fn => ContState.push ex fn s eff
  | ContOp.requestRunOp racing => ContState.requestRun racing s eff

/-- Run a sequence of continuation operations, collecting the Boolean
results returned by the `request_run` calls in the sequence. -/
def runContOps (ops : List ContOp) (s : ContState) (eff : ContEffects) :
    ContState × ContEffects × List Bool :=
  match ops with
  | [] => (s, eff, [])
  | op :: rest =>
    let r := runContOp op s eff
    let rec_ := runContOps rest r.2.1 r.2.2
    match op with
    | ContOp.requestRunOp _ => (rec_.1, rec_.2.1, r.1 :: rec_.2.2)
    | ContOp.pushOp _ _ => rec_

/-- Embedding of `continuations_source`: the `state_` member is a
shared pointer that is null when the source was constructed from
`nocontinuationsstate` (continuations_source.hpp, lines 322-323). -/
def ContSource : Type := Option ContState

/-- Embedding of `continuations_source::push`
(continuations_source.hpp, lines 362-369): forward to the state when
the pointer is not null, otherwise return false without recording or
executing the callback. -/
def ContSource.push (ex fn : Nat) (src : ContSource) (eff : ContEffects) :
    Bool × ContSource × ContEffects :=
  match src with
  | none => (false, none, eff)
  | some st =>
    ((ContState.push ex fn st eff).1,
      some (ContState.push ex fn st eff).2.1,
      (ContState.push ex fn st eff).2.2)

/-- Embedding of `continuations_source::request_run`
(continuations_source.hpp, lines 351-357): forward to the state when
the pointer is not null, otherwise return false. -/
def ContSource.requestRun (racing : List Nat) (src : ContSource)
    (eff : ContEffects) : Bool × ContSource × ContEffects :=
  match src with
  | none => (false, none, eff)
  | some st =>
    ((ContState.requestRun racing st eff).1,
      some (ContState.requestRun racing st eff).2.1,
      (ContState.requestRun racing st eff).2.2)

/-- Run one continuation operation through a `continuations_source`
handle, keeping the Boolean result. -/
def runSourceOp (op : ContOp) (src : ContSource) (eff : ContEffects) :
    Bool × ContSource × ContEffects :=
  match op with
  | ContOp.pushOp ex fn => ContSource.push ex fn src eff
  | ContOp.requestRunOp racing => ContSource.requestRun racing src eff

/-- Run a sequence of continuation operations through a
`continuations_source` handle, collecting every Boolean result. -/
def runSourceOps (ops : List ContOp) (src : ContSource) (eff : ContEffects) :
    ContSource × ContEffects × List Bool :=
  match ops with
  | [] => (src, eff, [])
  | op :: rest =>
    let r := runSourceOp op src eff
    let rec_ := runSourceOps rest r.2.1 r.2.2
    (rec_.1, rec_.2.1, r.1 :: rec_.2.2)

/-- Readiness scan loop shared by the iterator-range overloads of
`wait_for_all_for` (wait_for_all.hpp, lines 24-31) and
`wait_for_all_until` (lines 92-99).  The C++ loop is

`auto it = first; while (it != last) { if (!is_ready(*it)) {
all_ready = false; break; } }`

and never advances `it`, so each iteration re-examines the first
element.  The input list holds the readiness of each future in the
range after the per-future waits; the loop is given fuel, and `none`
models an execution that has not finished within any amount of fuel. -/
def scanLoop : Nat → List Bool → Option Bool
  | _, [] => some true
  | 0, _ :: _ => none
  | fuel + 1, b :: rest =>
    if b then scanLoop fuel (b :: rest) else some false

/-- Result computed from the scan loop by `wait_for_all_for` and
`wait_for_all_until`: ready when `all_ready` remained true, timeout
otherwise. -/
def waitForAllScan (fuel : Nat) (ready : List Bool) : Option FutureStatus :=
  (scanLoop fuel ready).map fun allReady =>
    if allReady then FutureStatus.ready else FutureStatus.timeout

/-- Operation state of an eager future right after construction:
`operation_state_base(false)` starts in status launched with no
exception, no stored value and no external waiters. -/
def eagerLaunchedState : OpState Nat :=
  { status := Status.launched
  , except := none
  , storage := none
  , externalWaiters := []
  , alwaysDeferred := false
  , hasExecutor := false
  , task := none
  , taskPosted := false
  , taskStarted := false }

/-- Transition relation on the status field actually respected by the
code: the status index never decreases, except that a timed wait that
reaches its deadline moves waiting back to launched
(operation_state.hpp, line 601). -/
def statusStepOk (a b : Status) : Prop :=
  a.toNat ≤ b.toNat ∨ (a = Status.waiting ∧ b = Status.launched)

/-- Operations the claim lists as blocking: `wait`, `wait_for`,
`wait_until` and `get`. -/
def isBlockingOp {V : Type} : StateOp V → Bool
  | StateOp.waitOp _ _ _ => true
  | StateOp.getOnState _ => true
  | _ => false

/-- Operations that can launch the stored deferred task: the blocking
operations together with `notify_when_ready`, which also posts the
deferred task. -/
def launcherOp {V : Type} : StateOp V → Bool
  | StateOp.waitOp _ _ _ => true
  | StateOp.getOnState _ => true
  | StateOp.notifyWhenReadyOp _ => true
  | _ => false

/-- Helper: the scan loop never terminates when the first future of a
non-empty range is ready, because the iterator is never advanced. -/
theorem scanLoop_true_none (fuel : Nat) (rest : List Bool) :
    scanLoop fuel (true :: rest) = none := by
  induction fuel with
  | zero => rfl
  | succ n ih => simpa [scanLoop] using ih

/-- C8: in the iterator-range overloads of `wait_for_all_for` and
`wait_for_all_until`, the readiness scan loop never advances its
iterator; on a non-empty range whose first future is ready the call
never terminates (no amount of fuel finishes the loop), and otherwise
the result is decided by the first future alone: timeout when the first
future is not ready, whatever the rest of the range holds, and ready
for the empty range. -/
theorem c8_wait_for_all_scan (fuel : Nat) (rest : List Bool) :
    scanLoop fuel (true :: rest) = none
  ∧ waitForAllScan fuel (true :: rest) = none
  ∧ waitForAllScan (fuel + 1) (false :: rest) = some FutureStatus.timeout
  ∧ waitForAllScan fuel [] = some FutureStatus.ready := by
  refine ⟨scanLoop_true_none fuel rest, ?_, ?_, ?_⟩
  · simp [waitForAllScan, scanLoop_true_none]
  · simp [waitForAllScan, scanLoop]
  · simp [waitForAllScan, scanLoop]

/-- Helper: a single operation through a `continuations_source` with no
associated state returns false and changes nothing. -/
theorem runSourceOp_none (op : ContOp) (eff : ContEffects) :
    runSourceOp op none eff = (false, none, eff) := by
  cases op <;> rfl

/-- C10: on a `continuations_source` constructed from
`nocontinuationsstate`, `push` returns false without recording or
executing the callback, `request_run` returns false, and over any
sequence of operations no callback is ever run or submitted. -/
theorem c10_no_state_source (ex fn : Nat) (racing : List Nat)
    (eff : ContEffects) (ops : List ContOp) :
    ContSource.push ex fn none eff = (false, none, eff)
  ∧ ContSource.requestRun racing none eff = (false, none, eff)
  ∧ runSourceOps ops none eff = (none, eff, ops.map fun _ => false) := by
  refine ⟨rfl, rfl, ?_⟩
  induction ops with
  | nil => rfl
  | cons op rest ih =>
    simp [runSourceOps, runSourceOp_none, ih]

/-- C5: `continuations_state::push` records the callback and returns
true when no run was requested at the moment of the call, and otherwise
submits the callback to the given executor and returns false; in both
cases it returns without waiting for anything. -/
theorem c5_push_contract (ex fn : Nat) (s : ContState) (eff : ContEffects) :
    (s.runRequested = false →
      ContState.push ex fn s eff
        = (true, { s with continuations := s.continuations ++ [fn] }, eff))
  ∧ (s.runRequested = true →
      ContState.push ex fn s eff
        = (false, s, { eff with submitted := eff.submitted ++ [(ex, fn)] })) := by
  constructor <;> intro h <;> simp [ContState.push, h]

/-- Witness for C5 at a concrete state: a push on a state that has not
fired records the callback and returns true. -/
theorem c5_push_contract_witness :
    ContState.push 1 2 { runRequested := false, continuations := [7] }
        { ran := [], submitted := [] }
      = (true, { runRequested := false, continuations := [7, 2] },
          { ran := [], submitted := [] }) :=
  (c5_push_contract 1 2 { runRequested := false, continuations := [7] }
    { ran := [], submitted := [] }).1 rfl

/-- Helper: once the run-requested latch is set, every later
`request_run` returns false. -/
theorem runContOps_fired_count (ops : List ContOp) (s : ContState)
    (eff : ContEffects) (h : s.runRequested = true) :
    (runContOps ops s eff).2.2.count true = 0 := by
  induction ops generalizing s eff with
  | nil => rfl
  | cons op rest ih =>
    cases op with
    | pushOp ex fn =>
      simp only [runContOps, runContOp, ContState.push, h, if_true]
      exact ih s _ h
    | requestRunOp racing =>
      simp only [runContOps, runContOp, ContState.requestRun, h, if_true]
      simp [List.count_cons, ih s eff h]

/-- Helper: the run-requested latch never resets. -/
theorem runContOps_fired_mono (ops : List ContOp) (s : ContState)
    (eff : ContEffects) (h : s.runRequested = true) :
    (runContOps ops s eff).1.runRequested = true := by
  induction ops generalizing s eff with
  | nil => exact h
  | cons op rest ih =>
    cases op with
    | pushOp ex fn =>
      simp only [runContOps, runContOp, ContState.push, h, if_true]
      exact ih s _ h
    | requestRunOp racing =>
      simp only [runContOps, runContOp, ContState.requestRun, h, if_true]
      exact ih s eff h

/-- Helper: starting from a state that has not fired, at most one
`request_run` in any operation sequence returns true. -/
theorem runContOps_count_le_one (ops : List ContOp) (s : ContState)
    (eff : ContEffects) (h : s.runRequested = false) :
    (runContOps ops s eff).2.2.count true ≤ 1 := by
  induction ops generalizing s eff with
  | nil => simp [runContOps]
  | cons op rest ih =>
    cases op with
    | pushOp ex fn =>
      simp only [runContOps, runContOp, ContState.push, h, if_false,
        Bool.false_eq_true]
      exact ih _ _ (by simp [h])
    | requestRunOp racing =>
      simp only [runContOps, runContOp, ContState.requestRun, h, if_false,
        Bool.false_eq_true]
      have h0 : ∀ e : ContEffects,
          (runContOps rest { runRequested := true, continuations := [] }
            e).2.2.count true = 0 :=
        fun e => runContOps_fired_count rest _ e rfl
      simp [List.count_cons, h0]

/-- C6: `request_run` succeeds exactly when the `fired` latch was still
false; on success it runs the recorded callbacks followed by the
callbacks that raced into the mutex-protected second drain, empties the
container, and returns true; the latch never resets, at most one
`request_run` in any operation sequence returns true, and once the
latch is set a push records nothing. -/
theorem c6_request_run (s : ContState) (eff : ContEffects)
    (racing : List Nat) (ex fn : Nat) (ops : List ContOp) :
    (s.runRequested = false →
      ContState.requestRun racing s eff
        = (true, { runRequested := true, continuations := [] },
            { eff with ran := eff.ran ++ s.continuations ++ racing }))
  ∧ (s.runRequested = true →
      ContState.requestRun racing s eff = (false, s, eff))
  ∧ (runContOps ops s eff).2.2.count true ≤ 1
  ∧ (s.runRequested = true → (runContOps ops s eff).1.runRequested = true)
  ∧ (s.runRequested = true →
      (ContState.push ex fn s eff).1 = false
      ∧ (ContState.push ex fn s eff).2.1 = s) := by
  refine ⟨?_, ?_, ?_, ?_, ?_⟩
  · intro h; simp [ContState.requestRun, h]
  · intro h; simp [ContState.requestRun, h]
  · cases h : s.runRequested
    · exact runContOps_count_le_one ops s eff h
    · exact le_of_eq_of_le (runContOps_fired_count ops s eff h) (by simp)
  · intro h; exact runContOps_fired_mono ops s eff h
  · intro h; simp [ContState.push, h]

/-- Witness for C6 at a concrete state: a successful `request_run`
drains the two recorded callbacks and then the racing one. -/
theorem c6_request_run_witness :
    ContState.requestRun [5] { runRequested := false, continuations := [3, 4] }
        { ran := [], submitted := [] }
      = (true, { runRequested := true, continuations := [] },
          { ran := [3, 4, 5], submitted := [] }) :=
  (c6_request_run { runRequested := false, continuations := [3, 4] }
    { ran := [], submitted := [] } [5] 0 0 []).1 rfl

/-- Helper: every operation run on a ready state keeps the state ready
and leaves the stored value and the stored exception unchanged. -/
theorem runOp_ready_preserves {V : Type} (op : StateOp V) (s : OpState V)
    (h : s.status = Status.ready) :
    (runOp op s).1.status = Status.ready
    ∧ (runOp op s).1.storage = s.storage
    ∧ (runOp op s).1.except = s.except := by
  cases op <;>
    simp [runOp, setValue, setException, markException, markExceptionUnsafe,
      markReady, markReadyUnsafe, signalPromiseDestroyed, waitImpl,
      notifyWhenReady, unnotifyWhenReady, h]

/-- Helper: a sequence of operations run on a ready state keeps the
state ready and leaves the stored value and exception unchanged. -/
theorem runOps_ready_preserves {V : Type} (ops : List (StateOp V))
    (s : OpState V) (h : s.status = Status.ready) :
    (runOps ops s).status = Status.ready
    ∧ (runOps ops s).storage = s.storage
    ∧ (runOps ops s).except = s.except := by
  induction ops generalizing s with
  | nil => exact ⟨h, rfl, rfl⟩
  | cons op rest ih =>
    have h1 := runOp_ready_preserves op s h
    have h2 := ih (runOp op s).1 h1.1
    exact ⟨h2.1, h2.2.1.trans h1.2.1, h2.2.2.trans h1.2.2⟩

/-- C1: the outcome of an operation state is written at most once.  On
a state that is already ready, `set_value` and `set_exception` throw
`promise_already_satisfied` and leave the state untouched, the
broken-promise installation of `signal_promise_destroyed` does nothing,
and no sequence of operations changes the stored value or exception;
moreover every `set_value` or `set_exception` call either completes the
state (so any later attempt hits the ready check) or reports
`promise_already_satisfied`. -/
theorem c1_single_completion {V : Type} (s : OpState V) (v : V) (e : Exn)
    (ops : List (StateOp V)) (h : s.status = Status.ready) :
    (setValue v s).1 = Except.error StateError.promiseAlreadySatisfied
  ∧ (setValue v s).2.1 = s
  ∧ (setException e s).1 = Except.error StateError.promiseAlreadySatisfied
  ∧ (setException e s).2.1 = s
  ∧ (signalPromiseDestroyed s).1 = s
  ∧ (runOps ops s).storage = s.storage
  ∧ (runOps ops s).except = s.except
  ∧ (∀ s2 : OpState V,
      (setValue v s2).2.1.status = Status.ready
      ∧ (setException e s2).2.1.status = Status.ready) := by
  refine ⟨?_, ?_, ?_, ?_, ?_, (runOps_ready_preserves ops s h).2.1,
    (runOps_ready_preserves ops s h).2.2, ?_⟩
  · simp [setValue, h]
  · simp [setValue, h]
  · simp [setException, markException, markExceptionUnsafe, h]
  · simp [setException, markException, markExceptionUnsafe, h]
  · simp [signalPromiseDestroyed, h]
  · intro s2
    by_cases h2 : s2.status = Status.ready <;>
      simp [setValue, setException, markException, markExceptionUnsafe,
        markReady, markReadyUnsafe, h2]

/-- Witness for C1 at a concrete ready state: the second `set_value`
reports `promise_already_satisfied` and the stored value survives a
further completion attempt. -/
theorem c1_single_completion_witness :
    (setValue 9 { eagerLaunchedState with
        status := Status.ready, storage := some 5 }).1
      = Except.error StateError.promiseAlreadySatisfied
  ∧ (runOps [StateOp.setExceptionOp (Exn.userError 3)]
        { eagerLaunchedState with
          status := Status.ready, storage := some 5 }).storage = some 5 := by
  have h := c1_single_completion
    { eagerLaunchedState with status := Status.ready, storage := some 5 }
    9 (Exn.userError 3) [StateOp.setExceptionOp (Exn.userError 3)] rfl
  exact ⟨h.1, h.2.2.2.2.2.1⟩

/-- C2, counterexample: completing a launched state through `set_value`
does not perform the steps the claim requires in the required order.
The trace it actually performs writes the value into the storage before
acquiring the waiter mutex, and no notification is performed at all,
because `mark_ready_unsafe` notifies only when the previous status was
waiting. -/
theorem c2_counterexample :
    isSubseq
        [Event.lockAcquire, Event.writeValue, Event.setStatus Status.ready,
          Event.notifyInternal]
        (setValue 0 eagerLaunchedState).2.2 = false
  ∧ (setValue 0 eagerLaunchedState).2.2
      = [Event.writeValue, Event.lockAcquire, Event.setStatus Status.ready,
          Event.lockRelease] := by
  constructor <;> rfl

/-- C2, amended: a completion through `set_value` writes the outcome
into the storage, then acquires the waiter mutex, then sets the status
to ready; a completion through `mark_exception` acquires the waiter
mutex, then writes the outcome, then sets the status to ready; in both
cases the internal condition variable and the registered external
condition variables are notified exactly when the previous status was
waiting. -/
theorem c2_completion_steps {V : Type} (s : OpState V) (v : V) (e : Exn)
    (h : s.status ≠ Status.ready) :
    (setValue v s).2.2
      = Event.writeValue :: Event.lockAcquire ::
          Event.setStatus Status.ready ::
            notifyEvents s.status s.externalWaiters ++ [Event.lockRelease]
  ∧ (setException e s).2.2
      = Event.lockAcquire :: Event.writeExcept ::
          Event.setStatus Status.ready ::
            notifyEvents s.status s.externalWaiters ++ [Event.lockRelease]
  ∧ (s.status ≠ Status.waiting →
      notifyEvents s.status s.externalWaiters = [])
  ∧ (s.status = Status.waiting →
      notifyEvents s.status s.externalWaiters
        = Event.notifyInternal ::
            s.externalWaiters.map Event.notifyExternal) := by
  refine ⟨?_, ?_, ?_, ?_⟩
  · simp [setValue, markReady, markReadyUnsafe, h]
  · simp [setException, markException, markExceptionUnsafe, markReadyUnsafe, h]
  · intro hw; simp [notifyEvents, hw]
  · intro hw; simp [notifyEvents, hw]

/-- Witness for C2 at a concrete waiting state with two registered
external waiters: `mark_exception` locks, writes, sets ready and then
notifies the internal and both external condition variables. -/
theorem c2_completion_steps_witness :
    (setException (Exn.userError 1)
        { eagerLaunchedState with
          status := Status.waiting, externalWaiters := [3, 4] }).2.2
      = [Event.lockAcquire, Event.writeExcept, Event.setStatus Status.ready,
          Event.notifyInternal, Event.notifyExternal 3,
          Event.notifyExternal 4, Event.lockRelease] := by
  have h := c2_completion_steps
    { eagerLaunchedState with
      status := Status.waiting, externalWaiters := [3, 4] }
    0 (Exn.userError 1) (by decide)
  rw [h.2.1, h.2.2.2 rfl]
  rfl

/-- Helper: when the launch phase of `wait_impl` leaves the state not
ready (the task was posted to an executor, there was nothing to post,
or the state was not deferred), it has changed neither the stored value
nor the stored exception. -/
theorem waitPostPhase_not_ready {V : Type} (isConst : Bool) (s : OpState V)
    (h : (waitPostPhase isConst s).1.status ≠ Status.ready) :
    (waitPostPhase isConst s).1.storage = s.storage
    ∧ (waitPostPhase isConst s).1.except = s.except := by
  cases isConst with
  | true => simp [waitPostPhase]
  | false =>
    by_cases hd : s.status = Status.deferred
    · cases hA : s.alwaysDeferred with
      | false => simp [waitPostPhase, postDeferred, hd, hA]
      | true =>
        cases hE : s.hasExecutor with
        | true => simp [waitPostPhase, postDeferred, hd, hA, hE]
        | false =>
          rcases hT : s.task with _ | c
          · simp [waitPostPhase, postDeferred, runInlineTask, hd, hA, hE, hT]
          · cases c with
            | value v =>
              exact absurd (by
                simp [waitPostPhase, postDeferred, runInlineTask,
                  applyCompletion, setValue, markReady, markReadyUnsafe,
                  hd, hA, hE, hT]) h
            | failure e =>
              exact absurd (by
                simp [waitPostPhase, postDeferred, runInlineTask,
                  applyCompletion, setException, markException,
                  markExceptionUnsafe, markReadyUnsafe, hd, hA, hE, hT]) h
    · simp [waitPostPhase, hd]

/-- C4: a timed wait (`wait_for` or `wait_until`, both of which call
`wait_impl` with a timeout time) always returns, the returned status is
one of ready, timeout and deferred by construction, deferred is
returned only by the const overload on a state whose status is still
deferred, and a timeout return leaves the status at launched with the
stored value and exception untouched. -/
theorem c4_timed_wait {V : Type} (isConst : Bool)
    (during : Option (Completion V)) (s : OpState V) :
    (waitImpl isConst true during s).1 ≠ none
  ∧ ((waitImpl isConst true during s).1 = some FutureStatus.deferred →
      isConst = true ∧ s.status = Status.deferred)
  ∧ ((waitImpl isConst true during s).1 = some FutureStatus.timeout →
      (waitImpl isConst true during s).2.1.status = Status.launched
      ∧ (waitImpl isConst true during s).2.1.storage = s.storage
      ∧ (waitImpl isConst true during s).2.1.except = s.except) := by
  by_cases h1 : isConst = true ∧ s.status = Status.deferred
  · simp [waitImpl, h1]
  · by_cases h2 : s.status = Status.ready
    · simp [waitImpl, h1, h2]
    · by_cases h3 : (waitPostPhase isConst s).1.status = Status.ready
      · simp [waitImpl, h1, h2, h3]
      · cases during with
        | some c => simp [waitImpl, h1, h2, h3]
        | none =>
          have hp := waitPostPhase_not_ready isConst s h3
          simp [waitImpl, h1, h2, h3, hp.1, hp.2]

/-- Witness for C4 at a concrete launched state: a timed wait that
sees no completion returns timeout, reverts the status to launched and
leaves the outcome unset. -/
theorem c4_timed_wait_witness :
    (waitImpl false true (none : Option (Completion Nat))
        eagerLaunchedState).2.1.status = Status.launched
  ∧ (waitImpl false true (none : Option (Completion Nat))
        eagerLaunchedState).2.1.storage = eagerLaunchedState.storage
  ∧ (waitImpl false true (none : Option (Completion Nat))
        eagerLaunchedState).2.1.except = eagerLaunchedState.except :=
  (c4_timed_wait false none eagerLaunchedState).2.2 (by decide)

/-- Helper: the status writes of a concatenated trace are the
concatenated status writes. -/
theorem statusWrites_append (a b : List Event) :
    statusWrites (a ++ b) = statusWrites a ++ statusWrites b := by
  induction a with
  | nil => rfl
  | cons e tr ih => cases e <;> simp [statusWrites, ih]

/-- Helper: external notifications never write the status. -/
theorem statusWrites_map_notifyExternal (ws : List Nat) :
    statusWrites (ws.map Event.notifyExternal) = [] := by
  induction ws with
  | nil => rfl
  | cons w rest ih => simpa [statusWrites] using ih

/-- Helper: condition-variable notifications never write the status. -/
theorem statusWrites_notifyEvents (prev : Status) (ws : List Nat) :
    statusWrites (notifyEvents prev ws) = [] := by
  by_cases h : prev = Status.waiting <;>
    simp [notifyEvents, statusWrites, statusWrites_map_notifyExternal, h]

/-- Helper: every status may step to ready. -/
theorem statusStepOk_to_ready (a : Status) : statusStepOk a Status.ready :=
  Or.inl (by cases a <;> simp [Status.toNat])

/-- C3, counterexample: a timed wait that reaches its deadline on a
launched state writes waiting and then launched into the status field,
moving it to an earlier value in the order the claim states, so the
claimed monotonicity fails for `wait_for` and `wait_until`. -/
theorem c3_counterexample :
    ¬ List.Chain' (fun a b => a.toNat ≤ b.toNat)
        (statusSeq (StateOp.waitOp false true none) eagerLaunchedState) := by
  intro hch
  have hseq : statusSeq (StateOp.waitOp false true none) eagerLaunchedState
      = [Status.launched, Status.waiting, Status.launched] := rfl
  rw [hseq] at hch
  simp [List.chain'_cons, Status.toNat] at hch

set_option maxHeartbeats 1600000 in
/-- C3, amended: along every operation of the state (waits, timed
waits, `notify_when_ready`, `mark_ready`, completions, the
broken-promise installation, waiter deregistration), the sequence of
values the operation writes into the status field never moves the
status to an earlier value in the order deferred, launched, waiting,
ready, with one exception: a timed wait that reaches its deadline moves
waiting back to launched.  Ready remains terminal: an operation run on
a ready state leaves it ready. -/
theorem c3_status_monotone {V : Type} (op : StateOp V) (s : OpState V) :
    List.Chain' statusStepOk (statusSeq op s)
  ∧ (s.status = Status.ready → (runOp op s).1.status = Status.ready) := by
  constructor
  · cases op with
    | setValueOp v =>
      by_cases h : s.status = Status.ready <;>
        simp [statusSeq, runOp, setValue, markReady, markReadyUnsafe,
          statusWrites, statusWrites_append, statusWrites_notifyEvents, h,
          statusStepOk_to_ready]
    | setExceptionOp e =>
      by_cases h : s.status = Status.ready <;>
        simp [statusSeq, runOp, setException, markException,
          markExceptionUnsafe, markReadyUnsafe, statusWrites,
          statusWrites_append, statusWrites_notifyEvents, h,
          statusStepOk_to_ready]
    | markReadyOp =>
      simp [statusSeq, runOp, markReady, markReadyUnsafe, statusWrites,
        statusWrites_append, statusWrites_notifyEvents,
        statusStepOk_to_ready]
    | signalPromiseDestroyedOp =>
      by_cases h : s.status = Status.ready <;>
        simp [statusSeq, runOp, signalPromiseDestroyed, markException,
          markExceptionUnsafe, markReadyUnsafe, statusWrites,
          statusWrites_append, statusWrites_notifyEvents, h,
          statusStepOk_to_ready]
    | unnotifyWhenReadyOp cv =>
      simp [statusSeq, runOp, unnotifyWhenReady, statusWrites]
    | notifyWhenReadyOp cv =>
      rcases hs : s.status with _ | _ | _ | _
      · cases hA : s.alwaysDeferred <;>
          cases hE : s.hasExecutor <;>
            rcases hT : s.task with _ | c <;>
              (try cases c) <;>
          simp [statusSeq, runOp, notifyWhenReady, postDeferred,
            runInlineTask, runInlineTaskLocked, applyCompletion, setValue,
            setException, markException, markExceptionUnsafe, markReady,
            markReadyUnsafe, statusWrites, statusWrites_append,
            statusWrites_notifyEvents, statusWrites_map_notifyExternal,
            hs, hA, hE, hT, statusStepOk, Status.toNat]
      all_goals
        simp [statusSeq, runOp, notifyWhenReady, statusWrites, hs,
          statusStepOk, Status.toNat]
    | waitOp isConst timed during =>
      cases isConst with
      | true =>
        rcases hs : s.status with _ | _ | _ | _ <;>
          cases timed <;>
            cases during <;>
          simp [statusSeq, runOp, waitImpl, waitPostPhase, statusWrites,
            statusWrites_append, hs, statusStepOk, Status.toNat]
      | false =>
        rcases hs : s.status with _ | _ | _ | _
        · cases hA : s.alwaysDeferred <;>
            cases hE : s.hasExecutor <;>
              rcases hT : s.task with _ | c <;>
                (try cases c) <;>
                  cases timed <;>
                    cases during <;>
            simp [statusSeq, runOp, waitImpl, waitPostPhase, postDeferred,
              runInlineTask, runInlineTaskLocked, applyCompletion, setValue,
              setException, markException, markExceptionUnsafe, markReady,
              markReadyUnsafe, statusWrites, statusWrites_append,
              statusWrites_notifyEvents, statusWrites_map_notifyExternal,
              hs, hA, hE, hT, statusStepOk, Status.toNat]
        all_goals
          cases timed <;>
            cases during <;>
          simp [statusSeq, runOp, waitImpl, waitPostPhase, statusWrites,
            statusWrites_append, hs, statusStepOk, Status.toNat]
    | getOnState during =>
      rcases hs : s.status with _ | _ | _ | _
      · cases hA : s.alwaysDeferred <;>
          cases hE : s.hasExecutor <;>
            rcases hT : s.task with _ | c <;>
              (try cases c) <;>
                cases during <;>
          simp [statusSeq, runOp, waitImpl, waitPostPhase, postDeferred,
            runInlineTask, runInlineTaskLocked, applyCompletion, setValue,
            setException, markException, markExceptionUnsafe, markReady,
            markReadyUnsafe, statusWrites, statusWrites_append,
            statusWrites_notifyEvents, statusWrites_map_notifyExternal,
            hs, hA, hE, hT, statusStepOk, Status.toNat]
      all_goals
        cases during <;>
          simp [statusSeq, runOp, waitImpl, waitPostPhase, statusWrites,
            statusWrites_append, hs, statusStepOk, Status.toNat]
  · intro h
    exact (runOp_ready_preserves op s h).1

/-- Witness for C3 at a concrete ready state: `mark_ready` leaves a
ready state ready. -/
theorem c3_status_monotone_witness :
    (runOp (StateOp.markReadyOp : StateOp Nat)
        { eagerLaunchedState with status := Status.ready }).1.status
      = Status.ready :=
  (c3_status_monotone StateOp.markReadyOp
    { eagerLaunchedState with status := Status.ready }).2 rfl

/-- Helper: an operation that is not a launcher leaves the
task-submitted and task-started flags unchanged. -/
theorem runOp_nonlauncher_flags {V : Type} (op : StateOp V) (s : OpState V)
    (h : launcherOp op = false) :
    (runOp op s).1.taskPosted = s.taskPosted
    ∧ (runOp op s).1.taskStarted = s.taskStarted := by
  cases op with
  | setValueOp v =>
    by_cases hr : s.status = Status.ready <;>
      simp [runOp, setValue, markReady, markReadyUnsafe, hr]
  | setExceptionOp e =>
    by_cases hr : s.status = Status.ready <;>
      simp [runOp, setException, markException, markExceptionUnsafe,
        markReadyUnsafe, hr]
  | markReadyOp => simp [runOp, markReady, markReadyUnsafe]
  | signalPromiseDestroyedOp =>
    by_cases hr : s.status = Status.ready <;>
      simp [runOp, signalPromiseDestroyed, markException,
        markExceptionUnsafe, markReadyUnsafe, hr]
  | unnotifyWhenReadyOp cv => simp [runOp, unnotifyWhenReady]
  | waitOp isConst timed during => simp [launcherOp] at h
  | getOnState during => simp [launcherOp] at h
  | notifyWhenReadyOp cv => simp [launcherOp] at h

/-- Helper: a sequence of non-launcher operations never submits or
starts the stored task. -/
theorem runOps_nonlauncher_flags {V : Type} (ops : List (StateOp V))
    (s : OpState V) (h : ∀ op ∈ ops, launcherOp op = false)
    (hp : s.taskPosted = false) (ht : s.taskStarted = false) :
    (runOps ops s).taskPosted = false
    ∧ (runOps ops s).taskStarted = false := by
  induction ops generalizing s with
  | nil => exact ⟨hp, ht⟩
  | cons op rest ih =>
    have h1 := runOp_nonlauncher_flags op s (h op (by simp))
    exact ih (runOp op s).1 (fun o ho => h o (by simp [ho]))
      (h1.1.trans hp) (h1.2.trans ht)

/-- C7, counterexample: on the always-deferred no-executor state built
by `schedule`, a single `notify_when_ready` call, which is not one of
the blocking operations the claim lists, starts the stored task: the
task runs inline and its result is already written into the storage. -/
theorem c7_counterexample :
    isBlockingOp (StateOp.notifyWhenReadyOp 0 : StateOp Nat) = false
  ∧ (runOps [StateOp.notifyWhenReadyOp 0]
        (mkDeferredState false (Completion.value 7))).taskStarted = true
  ∧ (runOps [StateOp.notifyWhenReadyOp 0]
        (mkDeferredState false (Completion.value 7))).storage = some 7 :=
  ⟨rfl, rfl, rfl⟩

/-- C7, amended: the task stored in a deferred operation state does not
execute before some thread invokes a blocking operation (`wait`,
`wait_for`, `wait_until`, `get`) or `notify_when_ready` on it: any
sequence of the remaining operations leaves the task neither submitted
nor started.  The first mutable wait on a state built by `schedule`
launches the task, submitting it to the stored executor when the state
has one and running it inline on the waiting thread (completing the
state) otherwise. -/
theorem c7_deferred_laziness {V : Type} (ops : List (StateOp V))
    (s : OpState V) (timed : Bool) (c : Completion V)
    (during : Option (Completion V))
    (h : ∀ op ∈ ops, launcherOp op = false)
    (hp : s.taskPosted = false) (ht : s.taskStarted = false) :
    (runOps ops s).taskPosted = false
  ∧ (runOps ops s).taskStarted = false
  ∧ (waitImpl false timed during (mkDeferredState true c)).2.1.taskPosted
      = true
  ∧ (waitImpl false timed during (mkDeferredState false c)).2.1.taskStarted
      = true
  ∧ (waitImpl false timed during (mkDeferredState false c)).2.1.status
      = Status.ready := by
  refine ⟨(runOps_nonlauncher_flags ops s h hp ht).1,
    (runOps_nonlauncher_flags ops s h hp ht).2, ?_, ?_, ?_⟩
  · cases during with
    | none =>
      cases timed <;>
        simp [waitImpl, waitPostPhase, postDeferred, mkDeferredState]
    | some c2 =>
      cases c2 <;> cases timed <;>
        simp [waitImpl, waitPostPhase, postDeferred, applyCompletion,
          setValue, setException, markException, markExceptionUnsafe,
          markReady, markReadyUnsafe, mkDeferredState]
  · cases c <;>
      simp [waitImpl, waitPostPhase, postDeferred, runInlineTask,
        applyCompletion, setValue, setException, markException,
        markExceptionUnsafe, markReady, markReadyUnsafe, mkDeferredState]
  · cases c <;>
      simp [waitImpl, waitPostPhase, postDeferred, runInlineTask,
        applyCompletion, setValue, setException, markException,
        markExceptionUnsafe, markReady, markReadyUnsafe, mkDeferredState]

/-- Witness for C7 at concrete states: completing the state through the
producer does not submit the task, and a first untimed mutable wait on
an executor-less scheduled state runs the task inline. -/
theorem c7_deferred_laziness_witness :
    (runOps [StateOp.setValueOp 1]
        (mkDeferredState true (Completion.value 7))).taskPosted = false
  ∧ (waitImpl false false (none : Option (Completion Nat))
        (mkDeferredState false (Completion.value 7))).2.1.taskStarted
      = true := by
  have h := c7_deferred_laziness [StateOp.setValueOp 1]
    (mkDeferredState true (Completion.value 7)) false (Completion.value 7)
    none (by decide) rfl rfl
  exact ⟨h.1, h.2.2.2.1⟩

/-- C9, counterexample: on the always-deferred no-executor deferred
state, `notify_when_ready` does not complete: the inline launch blocks
re-locking the waiter mutex inside the completion of the task, so the
status is never set to waiting and the condition variable is never
appended to the external waiter list. -/
theorem c9_counterexample :
    (notifyWhenReady 0
        (mkDeferredState false (Completion.value 7) : OpState Nat)).1 = false
  ∧ (notifyWhenReady 0
        (mkDeferredState false (Completion.value 7) : OpState Nat)).2.1.status
      = Status.launched
  ∧ (notifyWhenReady 0
        (mkDeferredState false (Completion.value 7)
          : OpState Nat)).2.1.externalWaiters = [] :=
  ⟨rfl, rfl, rfl⟩

/-- C9, amended: calling `notify_when_ready` on a deferred state whose
launch does not run the task inline under the held lock (the state is
not always-deferred, or it posts to an executor, or it stores no task)
performs, in order: lock, `wait_for_parent`, the status write to
launched, `post_deferred`, the status write to waiting, and the append
of the condition variable to the external waiter list; when the state
is always-deferred with an executor the task is thereby submitted, even
though no blocking operation was invoked. -/
theorem c9_notify_launches {V : Type} (cv : Nat) (s : OpState V)
    (h : s.status = Status.deferred)
    (hni : s.alwaysDeferred = false ∨ s.hasExecutor = true ∨ s.task = none) :
    (notifyWhenReady cv s).1 = true
  ∧ (notifyWhenReady cv s).2.1.status = Status.waiting
  ∧ (notifyWhenReady cv s).2.1.externalWaiters = s.externalWaiters ++ [cv]
  ∧ (s.alwaysDeferred = true → s.hasExecutor = true →
      (notifyWhenReady cv s).2.1.taskPosted = true)
  ∧ (notifyWhenReady cv s).2.2
      = Event.lockAcquire :: Event.waitForParent ::
          Event.setStatus Status.launched ::
            (postDeferred true { s with status := Status.launched }).2.2 ++
              [Event.setStatus Status.waiting, Event.appendWaiter cv,
                Event.lockRelease] := by
  rcases hni with hni | hni | hni
  · simp [notifyWhenReady, postDeferred, h, hni]
  · by_cases hA : s.alwaysDeferred <;>
      simp [notifyWhenReady, postDeferred, h, hni, hA]
  · by_cases hA : s.alwaysDeferred <;>
      by_cases hE : s.hasExecutor <;>
        simp [notifyWhenReady, postDeferred, runInlineTaskLocked, h, hni,
          hA, hE]

/-- Witness for C9 at a concrete scheduled state with an executor:
registering an external condition variable launches the task and
registers the waiter. -/
theorem c9_notify_launches_witness :
    (notifyWhenReady 5
        (mkDeferredState true (Completion.value 7) : OpState Nat)).1 = true
  ∧ (notifyWhenReady 5
        (mkDeferredState true (Completion.value 7) : OpState Nat)).2.1.status
      = Status.waiting
  ∧ (notifyWhenReady 5
        (mkDeferredState true (Completion.value 7)
          : OpState Nat)).2.1.taskPosted = true := by
  have h := c9_notify_launches 5
    (mkDeferredState true (Completion.value 7) : OpState Nat) rfl
    (Or.inr (Or.inl rfl))
  exact ⟨h.1, h.2.1, h.2.2.2.1 rfl rfl⟩

end Futures
